import Mathlib

/-!
Verification development for the Q-learning training core of the
personal-portfolio-challenge repository (src/ia-game-learning).

The JavaScript sources are shallowly embedded:
* a Q-table (a JS object of objects) becomes an association list in
  insertion order; JS object assignment replaces the first matching key in
  place or appends a new key at the end;
* JS numbers become exact rationals (ℚ);
* the in-memory state key (the string `JSON.stringify(tabuleiro)`) is
  modelled by the board itself (`List ℕ`), since the serialization is
  injective and order-preserving; the actual rendered character codes are
  modelled separately for the persistence layer;
* `Math.random()` becomes an injected stream of rational draws;
* methods that mutate `this` become functions threading the mutated value;
  a JS `throw` becomes `Except.error`, returned together with the state as
  it stands at the moment of the throw.
-/

/-- A state key: the board contents, cell by cell (0 empty, 1 X, 2 O). -/
abbrev ChaveEstado := List ℕ

/-- The action map of one state: action index, then Q-value. -/
abbrev TabelaAcoes := List (ℕ × ℚ)

/-- The Q-table of one agent: state key, then action map. -/
abbrev TabelaQ := List (ChaveEstado × TabelaAcoes)

/-- First-occurrence lookup in an association list (JS property read). -/
def busca {α β : Type} [DecidableEq α] : List (α × β) → α → Option β
  | [], _ => none
  | (k0, v0) :: resto, k => if k0 = k then some v0 else busca resto k

/-- JS object assignment: replace the first occurrence of the key in place,
or append the new key at the end. -/
def atribuir {α β : Type} [DecidableEq α] : List (α × β) → α → β → List (α × β)
  | [], k, v => [(k, v)]
  | (k0, v0) :: resto, k, v =>
      if k0 = k then (k, v) :: resto else (k0, v0) :: atribuir resto k v

/-- Lookup of the action map recorded for a state (`this.tabelaQ[estado]`). -/
def buscarEstado (t : TabelaQ) (estado : ChaveEstado) : Option TabelaAcoes :=
  busca t estado

/-- Lookup of one recorded Q-value (`this.tabelaQ[estado][acao]`). -/
def buscarValorQ (t : TabelaQ) (estado : ChaveEstado) (acao : ℕ) : Option ℚ :=
  match busca t estado with
  | none => none
  | some acoes => busca acoes acao

/-- The write `this.tabelaQ[estado][acao] = valor`, creating the state's
action map when it is absent. -/
def atribuirValorQ (t : TabelaQ) (estado : ChaveEstado) (acao : ℕ) (valor : ℚ) : TabelaQ :=
  match busca t estado with
  | none => atribuir t estado [(acao, valor)]
  | some acoes => atribuir t estado (atribuir acoes acao valor)

theorem busca_atribuir {α β : Type} [DecidableEq α] (l : List (α × β)) (k : α) (v : β)
    (k' : α) : busca (atribuir l k v) k' = if k' = k then some v else busca l k' := by
  induction l with
  | nil =>
      simp only [atribuir, busca]
      rcases eq_or_ne k k' with h | h
      · simp [h]
      · simp [h, Ne.symm h]
  | cons p resto ih =>
      obtain ⟨k0, v0⟩ := p
      simp only [atribuir]
      rcases eq_or_ne k0 k with h0 | h0
      · subst h0
        simp only [if_pos rfl, busca]
        rcases eq_or_ne k0 k' with h | h
        · simp [h]
        · simp [h, Ne.symm h]
      · rw [if_neg h0]
        simp only [busca]
        rcases eq_or_ne k0 k' with h | h
        · subst h
          simp [h0, Ne.symm h0]
        · simp [h, ih]

theorem buscarValorQ_atribuirValorQ (t : TabelaQ) (estado : ChaveEstado) (acao : ℕ)
    (valor : ℚ) (e : ChaveEstado) (a : ℕ) :
    buscarValorQ (atribuirValorQ t estado acao valor) e a =
      if e = estado then (if a = acao then some valor else buscarValorQ t estado a)
      else buscarValorQ t e a := by
  unfold atribuirValorQ buscarValorQ
  cases h : busca t estado with
  | none =>
      rw [busca_atribuir]
      by_cases he : e = estado
      · subst he
        simp only [if_pos rfl, h, busca]
        rcases eq_or_ne acao a with ha | ha
        · simp [ha, busca]
        · simp [busca, ha, Ne.symm ha]
      · simp [he, h]
  | some acoes =>
      rw [busca_atribuir]
      by_cases he : e = estado
      · subst he
        simp only [if_pos rfl, h]
        rcases eq_or_ne a acao with ha | ha
        · simp [ha, busca_atribuir]
        · simp [ha, busca_atribuir]
      · simp [he]

theorem buscarEstado_atribuirValorQ_isSome (t : TabelaQ) (estado : ChaveEstado)
    (acao : ℕ) (valor : ℚ) (e : ChaveEstado) :
    (buscarEstado (atribuirValorQ t estado acao valor) e).isSome =
      (e = estado || (buscarEstado t e).isSome) := by
  unfold atribuirValorQ buscarEstado
  cases h : busca t estado with
  | none =>
      rw [busca_atribuir]
      by_cases he : e = estado <;> simp [he, h]
  | some acoes =>
      rw [busca_atribuir]
      by_cases he : e = estado <;> simp [he, h]

/-- `AgenteQLearning.obterValorQ`: ensures the state key exists, ensures the
action key exists with default value 0.0, and returns the stored value
together with the table after those lazy insertions. -/
def obterValorQ (t : TabelaQ) (estado : ChaveEstado) (acao : ℕ) : ℚ × TabelaQ :=
  let t1 := match busca t estado with
    | none => atribuir t estado []
    | some _ => t
  let acoes := (busca t1 estado).getD []
  match busca acoes acao with
  | none => (0, atribuirValorQ t1 estado acao 0)
  | some v => (v, t1)

/-- `AgenteQLearning.#obterMelhorValorQDoEstado`: 0.0 for an unseen state or
an empty action map, otherwise the maximum recorded value. -/
def melhorValorQDoEstado (t : TabelaQ) (estado : ChaveEstado) : ℚ :=
  match busca t estado with
  | none => 0
  | some [] => 0
  | some ((_, v) :: resto) => (resto.map Prod.snd).foldl max v

/-- `AgenteQLearning.aprender`: the Bellman/TD update.  Note the order of
effects in the source: the old value is read through `obterValorQ` (which
lazily records `(estado, acao) ↦ 0.0`) before the best future value of
`proximoEstado` is computed. -/
def aprender (alpha gamma : ℚ) (t : TabelaQ) (estado : ChaveEstado) (acao : ℕ)
    (recompensa : ℚ) (proximoEstado : ChaveEstado) (finalizado : Bool) : TabelaQ :=
  let par := obterValorQ t estado acao
  let opiniaoAntiga := par.1
  let t1 := par.2
  let melhorValorFuturo := if finalizado then 0 else melhorValorQDoEstado t1 proximoEstado
  let valorRealDaJogada := recompensa + gamma * melhorValorFuturo
  let surpresa := valorRealDaJogada - opiniaoAntiga
  let novoValorQ := opiniaoAntiga + alpha * surpresa
  let t2 := match busca t1 estado with
    | none => atribuir t1 estado []
    | some _ => t1
  atribuirValorQ t2 estado acao novoValorQ

theorem atribuir_of_busca_none {α β : Type} [DecidableEq α] {l : List (α × β)} {k : α}
    (v : β) (h : busca l k = none) : atribuir l k v = l ++ [(k, v)] := by
  induction l with
  | nil => simp [atribuir]
  | cons p resto ih =>
      obtain ⟨k0, v0⟩ := p
      by_cases h0 : k0 = k
      · simp [busca, h0] at h
      · simp only [busca, if_neg h0] at h
        simp [atribuir, h0, ih h]

theorem atribuir_atribuir {α β : Type} [DecidableEq α] (l : List (α × β)) (k : α)
    (v w : β) : atribuir (atribuir l k v) k w = atribuir l k w := by
  induction l with
  | nil => simp [atribuir]
  | cons p resto ih =>
      obtain ⟨k0, v0⟩ := p
      by_cases h0 : k0 = k
      · simp [atribuir, h0]
      · simp [atribuir, h0, ih]

theorem foldl_max_append_single (l : List ℚ) (v x : ℚ) :
    List.foldl max v (l ++ [x]) = max (List.foldl max v l) x := by
  rw [List.foldl_append]
  rfl

theorem obterValorQ_of_busca_none {t : TabelaQ} {e : ChaveEstado} (a : ℕ)
    (h : busca t e = none) : obterValorQ t e a = (0, atribuir t e [(a, 0)]) := by
  unfold obterValorQ
  simp only [h]
  have h1 : busca (atribuir t e ([] : TabelaAcoes)) e = some [] := by
    rw [busca_atribuir]; simp
  simp only [h1, Option.getD_some, busca]
  unfold atribuirValorQ
  simp only [h1, atribuir_atribuir]
  rfl

theorem obterValorQ_of_busca_acao_none {t : TabelaQ} {e : ChaveEstado} {a : ℕ}
    {acoes : TabelaAcoes} (h : busca t e = some acoes) (h2 : busca acoes a = none) :
    obterValorQ t e a = (0, atribuir t e (acoes ++ [(a, 0)])) := by
  unfold obterValorQ
  simp only [h, Option.getD_some, h2]
  unfold atribuirValorQ
  simp only [h]
  rw [atribuir_of_busca_none 0 h2]

theorem obterValorQ_of_busca_acao_some {t : TabelaQ} {e : ChaveEstado} {a : ℕ}
    {acoes : TabelaAcoes} {v : ℚ} (h : busca t e = some acoes)
    (h2 : busca acoes a = some v) : obterValorQ t e a = (v, t) := by
  unfold obterValorQ
  simp only [h, Option.getD_some, h2]

theorem melhorValorQDoEstado_congr {t t' : TabelaQ} {p : ChaveEstado}
    (h : busca t p = busca t' p) : melhorValorQDoEstado t p = melhorValorQDoEstado t' p := by
  unfold melhorValorQDoEstado
  rw [h]

/-- The maximum over an action list extended by one 0.0 entry is the maximum
of the old action list and 0.0 (where the empty list counts as 0.0). -/
theorem melhor_acoes_append_zero (t t' : TabelaQ) (e : ChaveEstado) (a : ℕ)
    (acoes : TabelaAcoes) (h : busca t e = some acoes)
    (h' : busca t' e = some (acoes ++ [(a, 0)])) :
    melhorValorQDoEstado t' e = max (melhorValorQDoEstado t e) 0 := by
  unfold melhorValorQDoEstado
  rw [h, h']
  cases acoes with
  | nil => simp
  | cons p resto =>
      obtain ⟨a0, v0⟩ := p
      simp only [List.cons_append, List.map_append, List.map_cons, List.map_nil]
      rw [foldl_max_append_single]

theorem obterValorQ_fst (t : TabelaQ) (e : ChaveEstado) (a : ℕ) :
    (obterValorQ t e a).1 = (buscarValorQ t e a).getD 0 := by
  cases h : busca t e with
  | none =>
      rw [obterValorQ_of_busca_none a h]
      simp [buscarValorQ, h]
  | some acoes =>
      cases h2 : busca acoes a with
      | none =>
          rw [obterValorQ_of_busca_acao_none h h2]
          simp [buscarValorQ, h, h2]
      | some v =>
          rw [obterValorQ_of_busca_acao_some h h2]
          simp [buscarValorQ, h, h2]

theorem busca_obterValorQ_snd (t : TabelaQ) (e : ChaveEstado) (a : ℕ) :
    ∃ l, busca (obterValorQ t e a).2 e = some l := by
  cases h : busca t e with
  | none =>
      rw [obterValorQ_of_busca_none a h]
      exact ⟨[(a, 0)], by rw [busca_atribuir]; simp⟩
  | some acoes =>
      cases h2 : busca acoes a with
      | none =>
          rw [obterValorQ_of_busca_acao_none h h2]
          exact ⟨acoes ++ [(a, 0)], by rw [busca_atribuir]; simp⟩
      | some v =>
          rw [obterValorQ_of_busca_acao_some h h2]
          exact ⟨acoes, h⟩

/-- Best-value of any state after the lazy read `obterValorQ t e a`: unchanged,
except that when the read lazily recorded `(e, a) ↦ 0.0` the best value of `e`
itself becomes the maximum of the old best value and 0.0. -/
theorem melhor_apos_obterValorQ (t : TabelaQ) (e : ChaveEstado) (a : ℕ)
    (p : ChaveEstado) :
    melhorValorQDoEstado (obterValorQ t e a).2 p =
      if p = e ∧ buscarValorQ t e a = none then max (melhorValorQDoEstado t p) 0
      else melhorValorQDoEstado t p := by
  have hq : ∀ acoes, busca t e = some acoes → buscarValorQ t e a = busca acoes a := by
    intro acoes h
    unfold buscarValorQ
    rw [h]
  cases h : busca t e with
  | none =>
      have hnone : buscarValorQ t e a = none := by unfold buscarValorQ; rw [h]
      rw [obterValorQ_of_busca_none a h]
      by_cases hp : p = e
      · subst hp
        have hb : busca (atribuir t p [((a : ℕ), (0 : ℚ))]) p = some [(a, 0)] := by
          rw [busca_atribuir]; simp
        unfold melhorValorQDoEstado
        rw [hb, h]
        simp [hnone]
      · rw [if_neg (by simp [hp])]
        refine melhorValorQDoEstado_congr ?_
        rw [busca_atribuir, if_neg hp]
  | some acoes =>
      cases h2 : busca acoes a with
      | none =>
          have hnone : buscarValorQ t e a = none := by rw [hq acoes h, h2]
          rw [obterValorQ_of_busca_acao_none h h2]
          by_cases hp : p = e
          · subst hp
            rw [if_pos ⟨rfl, hnone⟩]
            exact melhor_acoes_append_zero t _ p a acoes h (by rw [busca_atribuir]; simp)
          · rw [if_neg (by simp [hp])]
            refine melhorValorQDoEstado_congr ?_
            rw [busca_atribuir, if_neg hp]
      | some v =>
          have hsome : buscarValorQ t e a = some v := by rw [hq acoes h, h2]
          rw [obterValorQ_of_busca_acao_some h h2]
          simp [hsome]

/-- `aprender` written as a single table write on the table produced by the
initial `obterValorQ` read. -/
theorem aprender_eq_atribuir (alpha gamma : ℚ) (t : TabelaQ) (estado : ChaveEstado)
    (acao : ℕ) (recompensa : ℚ) (prox : ChaveEstado) (fin : Bool) :
    aprender alpha gamma t estado acao recompensa prox fin =
      atribuirValorQ (obterValorQ t estado acao).2 estado acao
        ((obterValorQ t estado acao).1 + alpha * ((recompensa + gamma *
          (if fin then 0 else melhorValorQDoEstado (obterValorQ t estado acao).2 prox)) -
          (obterValorQ t estado acao).1)) := by
  obtain ⟨l, hl⟩ := busca_obterValorQ_snd t estado acao
  unfold aprender
  simp only [hl]

unseal Rat.add Rat.mul Rat.inv Rat.sub in
/-- C1 (corrected): `aprender` writes back
`old + α·((r + (terminal ? 0 : γ·best)) − old)`, where `old` is the value
recorded for `(estado, acao)` before the call (default 0.0) and `best` is the
best value of `proximoEstado` as read after `obterValorQ` has lazily recorded
`(estado, acao) ↦ 0.0`; that read equals the pre-call best value of
`proximoEstado`, except when `proximoEstado = estado` and the action was
unrecorded there, where it is `max (best, 0)`.  When `terminal` is true the
future term is dropped for every next-state key, and the α=0.5, γ=0.9,
old=0.0, best=0.8, r=0.0 instance yields exactly 0.36 = 9/25. -/
theorem C1_aprender_bellman :
    (∀ (alpha gamma : ℚ) (t : TabelaQ) (estado : ChaveEstado) (acao : ℕ)
        (recompensa : ℚ) (prox : ChaveEstado) (fin : Bool),
      buscarValorQ (aprender alpha gamma t estado acao recompensa prox fin) estado acao =
        some ((buscarValorQ t estado acao).getD 0 + alpha *
          ((recompensa + gamma * (if fin then 0 else
             (if prox = estado ∧ buscarValorQ t estado acao = none
              then max (melhorValorQDoEstado t prox) 0
              else melhorValorQDoEstado t prox))) -
           (buscarValorQ t estado acao).getD 0))) ∧
    (∀ (alpha gamma : ℚ) (t : TabelaQ) (estado : ChaveEstado) (acao : ℕ)
        (recompensa : ℚ) (prox prox' : ChaveEstado),
      aprender alpha gamma t estado acao recompensa prox true =
        aprender alpha gamma t estado acao recompensa prox' true) ∧
    buscarValorQ
      (aprender (1/2) (9/10)
        [([0, 0, 0, 0, 1, 0, 0, 0, 0], [(0, 1/2), (1, 4/5), (2, 3/10)])]
        [0, 0, 0, 0, 0, 0, 0, 0, 0] 4 0 [0, 0, 0, 0, 1, 0, 0, 0, 0] false)
      [0, 0, 0, 0, 0, 0, 0, 0, 0] 4 = some (9/25) := by
  refine ⟨?_, ?_, by decide⟩
  · intro alpha gamma t estado acao recompensa prox fin
    rw [aprender_eq_atribuir, buscarValorQ_atribuirValorQ, obterValorQ_fst,
      melhor_apos_obterValorQ]
    simp
  · intro alpha gamma t estado acao recompensa prox prox'
    rw [aprender_eq_atribuir, aprender_eq_atribuir]
    simp

unseal Rat.add Rat.mul Rat.inv Rat.sub in
/-- C1 counterexample: with the pre-call reading of `best_value`, the claimed
formula fails when `next_state_key = state_key`, the action is unrecorded
there, and every recorded value of that state is negative.  Here the table
records only `(5 ↦ −0.5)` for the state; updating action 7 with reward 0,
γ=0.9, α=0.5, `terminal=false` and the same state as next state writes 0.0,
while the claimed formula gives `0 + 0.5·(0.9·(−0.5)) = −9/40`. -/
theorem C1_contraexemplo :
    buscarValorQ
      (aprender (1/2) (9/10) [([1, 2, 0, 0, 0, 0, 0, 0, 0], [(5, -(1/2))])]
        [1, 2, 0, 0, 0, 0, 0, 0, 0] 7 0 [1, 2, 0, 0, 0, 0, 0, 0, 0] false)
      [1, 2, 0, 0, 0, 0, 0, 0, 0] 7 = some 0 ∧
    (0 : ℚ) + (1/2) * ((0 + (9/10) *
      melhorValorQDoEstado [([1, 2, 0, 0, 0, 0, 0, 0, 0], [(5, -(1/2))])]
        [1, 2, 0, 0, 0, 0, 0, 0, 0]) - 0) = -(9/40) ∧
    some (0 : ℚ) ≠ some (-(9/40) : ℚ) := by
  refine ⟨by decide, by decide, by decide⟩

/-- `AgenteQLearning`: hyperparameters, identity, Q-table, statistics and the
per-episode trajectory (`historicoPartida`). -/
structure Agente where
  alpha : ℚ
  gamma : ℚ
  epsilon : ℚ
  epsilonMinimo : ℚ
  taxaDecaimentoEpsilon : ℚ
  jogador : ℕ
  simbolo : Char
  tabelaQ : TabelaQ
  partidasTreinadas : ℕ
  vitorias : ℕ
  derrotas : ℕ
  empates : ℕ
  historicoPartida : List (ChaveEstado × ℕ)

/-- The `AgenteQLearning` constructor with the source's default
hyperparameters (α=0.5, γ=1.0, ε=1.0, ε_min=0.001, decay=0.99999). -/
def criarAgente (jogador : ℕ) : Agente :=
  { alpha := 1/2, gamma := 1, epsilon := 1, epsilonMinimo := 1/1000,
    taxaDecaimentoEpsilon := 99999/100000, jogador := jogador,
    simbolo := if jogador = 1 then 'X' else 'O', tabelaQ := [],
    partidasTreinadas := 0, vitorias := 0, derrotas := 0, empates := 0,
    historicoPartida := [] }

/-- `AgenteQLearning.iniciarNovaPartida`: clears the trajectory buffer. -/
def iniciarNovaPartida (a : Agente) : Agente := { a with historicoPartida := [] }

/-- `AgenteQLearning.registrarJogada`: appends one (state, action) pair. -/
def registrarJogada (a : Agente) (estado : ChaveEstado) (acao : ℕ) : Agente :=
  { a with historicoPartida := a.historicoPartida ++ [(estado, acao)] }

/-- `AgenteQLearning.reduzirEpsilon`: `ε = max(ε_min, ε·decay)`. -/
def reduzirEpsilon (a : Agente) : Agente :=
  { a with epsilon := max a.epsilonMinimo (a.epsilon * a.taxaDecaimentoEpsilon) }

/-- The backward loop of `aprenderComFimDePartida`, applied to the trajectory
read from its last entry to its first (the reversed trajectory): each step
calls `aprender` with `terminal=true` and the state itself as next state, then
multiplies the reward by γ. -/
def propagarRecompensa (alpha gamma : ℚ) :
    TabelaQ → ℚ → List (ChaveEstado × ℕ) → TabelaQ
  | t, _, [] => t
  | t, recompensa, (estado, acao) :: resto =>
      propagarRecompensa alpha gamma
        (aprender alpha gamma t estado acao recompensa estado true)
        (recompensa * gamma) resto

/-- The argument tuples of the `aprender` calls made by the backward loop, in
call order: (estado, acao, recompensa, proximoEstado, finalizado). -/
def chamadasDePropagacao (gamma : ℚ) :
    ℚ → List (ChaveEstado × ℕ) → List (ChaveEstado × ℕ × ℚ × ChaveEstado × Bool)
  | _, [] => []
  | recompensa, (estado, acao) :: resto =>
      (estado, acao, recompensa, estado, true) ::
        chamadasDePropagacao gamma (recompensa * gamma) resto

/-- `AgenteQLearning.aprenderComFimDePartida`: bumps the episode counters,
replays the trajectory backwards through `aprender`, and decays ε. -/
def aprenderComFimDePartida (a : Agente) (recompensaFinal : ℚ) : Agente :=
  let a1 := { a with partidasTreinadas := a.partidasTreinadas + 1 }
  let a2 :=
    if recompensaFinal > 0 then { a1 with vitorias := a1.vitorias + 1 }
    else if recompensaFinal < 0 then { a1 with derrotas := a1.derrotas + 1 }
    else { a1 with empates := a1.empates + 1 }
  let novaTabela :=
    propagarRecompensa a.alpha a.gamma a.tabelaQ recompensaFinal
      a.historicoPartida.reverse
  let a3 := { a2 with tabelaQ := novaTabela }
  reduzirEpsilon a3

theorem propagarRecompensa_foldl (alpha gamma : ℚ) :
    ∀ (l : List (ChaveEstado × ℕ)) (t : TabelaQ) (r : ℚ),
      propagarRecompensa alpha gamma t r l =
        (chamadasDePropagacao gamma r l).foldl
          (fun t c => aprender alpha gamma t c.1 c.2.1 c.2.2.1 c.2.2.2.1 c.2.2.2.2) t := by
  intro l
  induction l with
  | nil => intro t r; rfl
  | cons p resto ih =>
      intro t r
      obtain ⟨estado, acao⟩ := p
      simp only [propagarRecompensa, chamadasDePropagacao, List.foldl_cons]
      exact ih _ _

theorem chamadasDePropagacao_get? (gamma : ℚ) :
    ∀ (l : List (ChaveEstado × ℕ)) (r : ℚ) (i : ℕ),
      (chamadasDePropagacao gamma r l).get? i =
        (l.get? i).map (fun p => (p.1, p.2, r * gamma ^ i, p.1, true)) := by
  intro l
  induction l with
  | nil => intro r i; simp [chamadasDePropagacao]
  | cons p resto ih =>
      intro r i
      obtain ⟨estado, acao⟩ := p
      cases i with
      | zero => simp [chamadasDePropagacao]
      | succ n =>
          have hpow : r * gamma ^ (n + 1) = (r * gamma) * gamma ^ n := by ring
          simp only [chamadasDePropagacao, List.get?_cons_succ, hpow, ih (r * gamma) n]

theorem chamadasDePropagacao_length (gamma : ℚ) :
    ∀ (l : List (ChaveEstado × ℕ)) (r : ℚ),
      (chamadasDePropagacao gamma r l).length = l.length := by
  intro l
  induction l with
  | nil => intro r; rfl
  | cons p resto ih =>
      intro r
      obtain ⟨estado, acao⟩ := p
      simp [chamadasDePropagacao, ih]

unseal Rat.add Rat.mul Rat.inv Rat.sub in
/-- C2 (confirmed): `aprenderComFimDePartida` updates the Q-table by exactly
one `aprender` call per recorded pair, walking the trajectory from the most
recent pair to the earliest; the i-th call (i = 0, 1, ...) counted from the
end of the trajectory uses reward `R·γ^i`, next-state key equal to the pair's
own state key, and `terminal = true`.  For a 3-move trajectory with R = 1.0
and γ = 0.9 the three calls carry rewards 1.0, 0.9 and 0.81, aimed at the
last, second-to-last and first move respectively. -/
theorem C2_propagacao_reversa :
    (∀ (a : Agente) (recompensaFinal : ℚ),
      (aprenderComFimDePartida a recompensaFinal).tabelaQ =
        (chamadasDePropagacao a.gamma recompensaFinal a.historicoPartida.reverse).foldl
          (fun t c => aprender a.alpha a.gamma t c.1 c.2.1 c.2.2.1 c.2.2.2.1 c.2.2.2.2)
          a.tabelaQ) ∧
    (∀ (gamma recompensa : ℚ) (hist : List (ChaveEstado × ℕ)) (i : ℕ),
      (chamadasDePropagacao gamma recompensa hist.reverse).get? i =
        (hist.reverse.get? i).map (fun p => (p.1, p.2, recompensa * gamma ^ i, p.1, true))) ∧
    (∀ (gamma recompensa : ℚ) (hist : List (ChaveEstado × ℕ)),
      (chamadasDePropagacao gamma recompensa hist.reverse).length = hist.length) ∧
    chamadasDePropagacao (9/10) 1
      ([([0, 0, 0, 0, 0, 0, 0, 0, 0], 0), ([1, 0, 0, 0, 0, 0, 0, 2, 0], 4),
        ([1, 2, 0, 0, 1, 0, 0, 2, 0], 8)] : List (ChaveEstado × ℕ)).reverse =
      [([1, 2, 0, 0, 1, 0, 0, 2, 0], 8, 1, [1, 2, 0, 0, 1, 0, 0, 2, 0], true),
       ([1, 0, 0, 0, 0, 0, 0, 2, 0], 4, 9/10, [1, 0, 0, 0, 0, 0, 0, 2, 0], true),
       ([0, 0, 0, 0, 0, 0, 0, 0, 0], 0, 81/100, [0, 0, 0, 0, 0, 0, 0, 0, 0], true)] := by
  refine ⟨?_, ?_, ?_, by decide⟩
  · intro a recompensaFinal
    unfold aprenderComFimDePartida
    split_ifs <;> simp [reduzirEpsilon, propagarRecompensa_foldl]
  · intro gamma recompensa hist i
    exact chamadasDePropagacao_get? gamma hist.reverse recompensa i
  · intro gamma recompensa hist
    rw [chamadasDePropagacao_length gamma hist.reverse recompensa, List.length_reverse]

/-- A concrete agent whose trajectory buffer holds one recorded pair. -/
def agenteComHistorico : Agente :=
  { criarAgente 1 with historicoPartida := [([0, 0, 0, 0, 0, 0, 0, 0, 0], 4)] }

unseal Rat.add Rat.mul Rat.inv Rat.sub in
/-- C8 counterexample: after `aprenderComFimDePartida` returns, the trajectory
buffer still holds the episode's (state, action) pair — the source never
clears `historicoPartida` there (only `iniciarNovaPartida` does, at the start
of the next episode). -/
theorem C8_contraexemplo :
    (aprenderComFimDePartida agenteComHistorico 1).historicoPartida =
      [([0, 0, 0, 0, 0, 0, 0, 0, 0], 4)] ∧
    ([([0, 0, 0, 0, 0, 0, 0, 0, 0], 4)] : List (ChaveEstado × ℕ)) ≠ [] := by
  refine ⟨by decide, by decide⟩

/-- C8 (corrected): `aprenderComFimDePartida` reads the trajectory buffer but
leaves it untouched; the buffer is discarded only by `iniciarNovaPartida`,
which the Trainer calls at the start of the next episode. -/
theorem C8_historico_preservado :
    (∀ (a : Agente) (recompensaFinal : ℚ),
      (aprenderComFimDePartida a recompensaFinal).historicoPartida =
        a.historicoPartida) ∧
    (∀ a : Agente, (iniciarNovaPartida a).historicoPartida = []) := by
  constructor
  · intro a recompensaFinal
    unfold aprenderComFimDePartida
    split_ifs <;> rfl
  · intro a
    rfl

/-- `AmbienteJogoDaVelha`: board dimension, cell count, the construction-time
`jogadorInicial` field, the precomputed win combinations, and the mutable
match state. -/
structure Ambiente where
  dimensao : ℕ
  numeroDeCasas : ℕ
  jogadorInicial : ℕ
  combinacoesDeVitoria : List (List ℕ)
  tabuleiro : List ℕ
  jogadorAtual : ℕ
  partidaFinalizada : Bool
  vencedor : Option ℕ

/-- `#gerarCombinacoesDeVitoria` (both source variants compute the same
lists): the N rows, the N columns, the main diagonal and the secondary
diagonal, in that order.  The first variant builds the rows with a step-N
index loop, which visits exactly `i = k·N` for `k < N`. -/
def gerarCombinacoesDeVitoria (dimensao : ℕ) : List (List ℕ) :=
  let linhas := (List.range dimensao).map
    (fun k => (List.range dimensao).map (fun j => k * dimensao + j))
  let colunas := (List.range dimensao).map
    (fun i => (List.range dimensao).map (fun j => i + j * dimensao))
  let diagonalPrincipal := (List.range dimensao).map (fun i => i * (dimensao + 1))
  let diagonalSecundaria := (List.range dimensao).map (fun i => (i + 1) * (dimensao - 1))
  linhas ++ colunas ++ [diagonalPrincipal, diagonalSecundaria]

/-- `reiniciarPartida`, first source variant: clears the board and flags and
draws the starting player with `Math.random() < 0.5 ? 1 : 2` (the injected
draw `sorteio` stands for the `Math.random()` result). -/
def reiniciarPartida (a : Ambiente) (sorteio : ℚ) : Ambiente :=
  { a with tabuleiro := List.replicate a.numeroDeCasas 0,
           jogadorAtual := if sorteio < 1/2 then 1 else 2,
           partidaFinalizada := false,
           vencedor := none }

/-- `reiniciarPartida`, second source variant: clears the board and flags and
sets the starting player to `this.jogadorInicial`, consuming no randomness. -/
def reiniciarPartidaV2 (a : Ambiente) : Ambiente :=
  { a with tabuleiro := List.replicate a.numeroDeCasas 0,
           jogadorAtual := a.jogadorInicial,
           partidaFinalizada := false,
           vencedor := none }

/-- The `AmbienteJogoDaVelha` constructor (first variant): validates the
dimension, fixes `jogadorInicial := 1`, precomputes the win combinations and
resets (which consumes one random draw). -/
def criarAmbiente (dimensao : ℕ) (sorteio : ℚ) : Except String Ambiente :=
  if dimensao < 3 ∨ 9 < dimensao then
    Except.error "O tamanho do tabuleiro deve estar entre 3 e 9."
  else
    Except.ok (reiniciarPartida
      { dimensao := dimensao, numeroDeCasas := dimensao * dimensao,
        jogadorInicial := 1,
        combinacoesDeVitoria := gerarCombinacoesDeVitoria dimensao,
        tabuleiro := [], jogadorAtual := 1, partidaFinalizada := false,
        vencedor := none } sorteio)

/-- The `AmbienteJogoDaVelha` constructor (second variant): same fields, but
its `reiniciarPartida` starts `jogadorInicial` (= 1) without randomness. -/
def criarAmbienteV2 (dimensao : ℕ) : Except String Ambiente :=
  if dimensao < 3 ∨ 9 < dimensao then
    Except.error "O tamanho do tabuleiro deve estar entre 3 e 9."
  else
    Except.ok (reiniciarPartidaV2
      { dimensao := dimensao, numeroDeCasas := dimensao * dimensao,
        jogadorInicial := 1,
        combinacoesDeVitoria := gerarCombinacoesDeVitoria dimensao,
        tabuleiro := [], jogadorAtual := 1, partidaFinalizada := false,
        vencedor := none })

/-- `obterEstado`: a copy of the board (value semantics in the embedding). -/
def obterEstado (a : Ambiente) : List ℕ := a.tabuleiro

/-- `obterAcoesValidas`: the indices of the empty cells, ascending. -/
def obterAcoesValidas (a : Ambiente) : List ℕ :=
  (a.tabuleiro.enum.filter (fun p => p.2 = 0)).map Prod.fst

/-- `obterEstadoComoTupla`: the immutable Q-table key of the current board
(the injective serialization is modelled by the board itself). -/
def obterEstadoComoTupla (a : Ambiente) : ChaveEstado := a.tabuleiro

/-- The two failure cases of `executarJogada`: the target cell is occupied
(or the index is out of range, which reads as a non-empty cell), or the match
has already finished.  Both are `InvalidAction`-class errors in the spec's
taxonomy. -/
inductive ErroJogada where
  | acaoInvalida (posicao : ℕ)
  | partidaJaFinalizada
deriving DecidableEq

/-- `#verificarVitoria`: some win combination fully occupied by the player. -/
def verificarVitoria (a : Ambiente) (jogador : ℕ) : Bool :=
  a.combinacoesDeVitoria.any
    (fun combinacao => combinacao.all (fun casa => a.tabuleiro.get? casa == some jogador))

/-- `#trocarJogador`. -/
def trocarJogador (a : Ambiente) : Ambiente :=
  { a with jogadorAtual := if a.jogadorAtual = 1 then 2 else 1 }

/-- `executarJogada`: occupied-cell check first (an out-of-range index reads
`undefined ≠ 0` and fails the same way), then the finished-match check, then
the mark is written, termination is evaluated, the player toggles, and the
(new state, reward, finished) tuple is returned.  The second component is the
environment as left by the call — unchanged when an error is thrown. -/
def executarJogada (a : Ambiente) (acao : ℕ) :
    Except ErroJogada (List ℕ × ℚ × Bool) × Ambiente :=
  if a.tabuleiro.get? acao ≠ some 0 then
    (Except.error (ErroJogada.acaoInvalida acao), a)
  else if a.partidaFinalizada then
    (Except.error ErroJogada.partidaJaFinalizada, a)
  else
    let a1 := { a with tabuleiro := a.tabuleiro.set acao a.jogadorAtual }
    let venceu := verificarVitoria a1 a1.jogadorAtual
    let recompensa : ℚ := if venceu then 1 else 0
    let a2 :=
      if venceu then
        { a1 with partidaFinalizada := true, vencedor := some a1.jogadorAtual }
      else if (obterAcoesValidas a1).length = 0 then
        { a1 with partidaFinalizada := true, vencedor := some 0 }
      else a1
    let a3 := trocarJogador a2
    (Except.ok (obterEstado a3, recompensa, a3.partidaFinalizada), a3)

/-- A concrete environment in the second variant, mid-session, with player 2
about to be preferred if the reset honoured any coin flip. -/
def ambienteV2Exemplo : Ambiente :=
  { dimensao := 3, numeroDeCasas := 9, jogadorInicial := 1,
    combinacoesDeVitoria := gerarCombinacoesDeVitoria 3,
    tabuleiro := [1, 2, 0, 0, 0, 0, 0, 0, 0], jogadorAtual := 2,
    partidaFinalizada := false, vencedor := none }

/-- C4 counterexample: the second source variant of `reiniciarPartida` sets
the starting player to 1 unconditionally — it consumes no random draw at all,
so the starting player is never 2, contradicting the claimed fair coin flip
(under which a draw of, say, 0.7 must start player 2). -/
theorem C4_contraexemplo :
    (reiniciarPartidaV2 ambienteV2Exemplo).jogadorAtual = 1 ∧ (1 : ℕ) ≠ 2 := by
  exact ⟨rfl, by decide⟩

unseal Rat.inv in
/-- C4 (corrected): both variants clear the board, the finished flag and the
winner; the first variant starts player 1 exactly when the injected draw is
below 0.5 and player 2 otherwise (a fair coin for a uniform draw), but the
second variant always starts `jogadorInicial`, which its constructor fixes to
player 1 — there the starting player is fixed, not coin-flipped. -/
theorem C4_reinicio :
    (∀ (a : Ambiente) (sorteio : ℚ),
      (reiniciarPartida a sorteio).tabuleiro = List.replicate a.numeroDeCasas 0 ∧
      (reiniciarPartida a sorteio).partidaFinalizada = false ∧
      (reiniciarPartida a sorteio).vencedor = none ∧
      (reiniciarPartida a sorteio).jogadorAtual = (if sorteio < 1/2 then 1 else 2)) ∧
    (∀ a : Ambiente,
      (reiniciarPartidaV2 a).tabuleiro = List.replicate a.numeroDeCasas 0 ∧
      (reiniciarPartidaV2 a).partidaFinalizada = false ∧
      (reiniciarPartidaV2 a).vencedor = none ∧
      (reiniciarPartidaV2 a).jogadorAtual = a.jogadorInicial) ∧
    (∀ (d : ℕ) (amb : Ambiente),
      criarAmbienteV2 d = Except.ok amb → amb.jogadorInicial = 1) := by
  refine ⟨fun a s => ⟨rfl, rfl, rfl, rfl⟩, fun a => ⟨rfl, rfl, rfl, rfl⟩, ?_⟩
  intro d amb h
  unfold criarAmbienteV2 at h
  by_cases hd : d < 3 ∨ 9 < d
  · rw [if_pos hd] at h
    exact Except.noConfusion h
  · rw [if_neg hd] at h
    injection h with h'
    rw [← h']
    rfl

/-- The second-variant environment produced by the constructor at N = 3. -/
def ambienteV2Padrao : Ambiente :=
  reiniciarPartidaV2
    { dimensao := 3, numeroDeCasas := 3 * 3, jogadorInicial := 1,
      combinacoesDeVitoria := gerarCombinacoesDeVitoria 3,
      tabuleiro := [], jogadorAtual := 1, partidaFinalizada := false,
      vencedor := none }

/-- C4 witness: the constructor at N = 3 satisfies the hypothesis of the
third conjunct of the corrected statement. -/
theorem C4_testemunha :
    criarAmbienteV2 3 = Except.ok ambienteV2Padrao ∧
    ambienteV2Padrao.jogadorInicial = 1 := by
  exact ⟨rfl, C4_reinicio.2.2 3 ambienteV2Padrao rfl⟩

/-- Row i of an N×N board, described independently of the generator: the
ascending list of cell indices whose row number is i. -/
def linhaEsperada (n i : ℕ) : List ℕ :=
  (List.range (n * n)).filter (fun x => x / n = i)

/-- Column i of an N×N board: ascending indices with column number i. -/
def colunaEsperada (n i : ℕ) : List ℕ :=
  (List.range (n * n)).filter (fun x => x % n = i)

/-- The main diagonal of an N×N board: row number equals column number. -/
def diagonalPrincipalEsperada (n : ℕ) : List ℕ :=
  (List.range (n * n)).filter (fun x => x / n = x % n)

/-- The secondary diagonal: row number plus column number equals N − 1. -/
def diagonalSecundariaEsperada (n : ℕ) : List ℕ :=
  (List.range (n * n)).filter (fun x => x / n + x % n = n - 1)

/-- C6 (confirmed): for every dimension 3 ≤ N ≤ 9, the generated
win-combination list has exactly 2N + 2 combinations, each of exactly N
distinct indices below N², the combinations are pairwise distinct, and each
of the N rows, the N columns and the two full diagonals occurs exactly
once. -/
theorem C6_combinacoesDeVitoria (n : ℕ) (h3 : 3 ≤ n) (h9 : n ≤ 9) :
    (gerarCombinacoesDeVitoria n).length = 2 * n + 2 ∧
    (∀ c ∈ gerarCombinacoesDeVitoria n,
      c.length = n ∧ c.Nodup ∧ ∀ x ∈ c, x < n * n) ∧
    (gerarCombinacoesDeVitoria n).Nodup ∧
    (∀ i ∈ List.range n,
      (gerarCombinacoesDeVitoria n).count (linhaEsperada n i) = 1 ∧
      (gerarCombinacoesDeVitoria n).count (colunaEsperada n i) = 1) ∧
    (gerarCombinacoesDeVitoria n).count (diagonalPrincipalEsperada n) = 1 ∧
    (gerarCombinacoesDeVitoria n).count (diagonalSecundariaEsperada n) = 1 := by
  interval_cases n <;> exact (by decide)

/-- C6 witness: the generator at N = 3, through the theorem itself. -/
theorem C6_testemunha :
    3 ≤ 3 ∧ (3 : ℕ) ≤ 9 ∧ (gerarCombinacoesDeVitoria 3).length = 2 * 3 + 2 := by
  exact ⟨by decide, by decide, (C6_combinacoesDeVitoria 3 (by decide) (by decide)).1⟩

/-- C7 (confirmed): `executarJogada` fails on a non-empty target cell no
matter whether the match is still in progress or already finished (the
occupied-cell check runs first), and it also fails on an empty cell once the
match has finished. -/
theorem C7_executarJogada_falhas :
    (∀ (a : Ambiente) (acao : ℕ), a.tabuleiro.get? acao ≠ some 0 →
      (executarJogada a acao).1 = Except.error (ErroJogada.acaoInvalida acao)) ∧
    (∀ (a : Ambiente) (acao : ℕ), a.tabuleiro.get? acao = some 0 →
      a.partidaFinalizada = true →
      (executarJogada a acao).1 = Except.error ErroJogada.partidaJaFinalizada) := by
  constructor
  · intro a acao h
    unfold executarJogada
    rw [if_pos h]
  · intro a acao h hf
    unfold executarJogada
    rw [if_neg (fun hc => hc h), if_pos hf]

/-- A concrete in-progress environment whose cell 0 is occupied. -/
def ambienteOcupado : Ambiente :=
  { dimensao := 3, numeroDeCasas := 9, jogadorInicial := 1,
    combinacoesDeVitoria := gerarCombinacoesDeVitoria 3,
    tabuleiro := [1, 0, 0, 0, 0, 0, 0, 0, 0], jogadorAtual := 2,
    partidaFinalizada := false, vencedor := none }

/-- A concrete finished environment with an empty cell 5. -/
def ambienteFinalizado : Ambiente :=
  { dimensao := 3, numeroDeCasas := 9, jogadorInicial := 1,
    combinacoesDeVitoria := gerarCombinacoesDeVitoria 3,
    tabuleiro := [1, 1, 1, 2, 2, 0, 0, 0, 0], jogadorAtual := 2,
    partidaFinalizada := true, vencedor := some 1 }

/-- C7 witness: both failure cases at concrete environments, including an
occupied cell inside an already finished match. -/
theorem C7_testemunha :
    (executarJogada ambienteOcupado 0).1 =
      Except.error (ErroJogada.acaoInvalida 0) ∧
    (executarJogada ambienteFinalizado 5).1 =
      Except.error ErroJogada.partidaJaFinalizada ∧
    (executarJogada ambienteFinalizado 0).1 =
      Except.error (ErroJogada.acaoInvalida 0) := by
  refine ⟨C7_executarJogada_falhas.1 ambienteOcupado 0 (by decide),
    C7_executarJogada_falhas.2 ambienteFinalizado 5 (by decide) rfl,
    C7_executarJogada_falhas.1 ambienteFinalizado 0 (by decide)⟩

/-- C10 (confirmed): `executarJogada` is atomic on failure — whenever it
returns an error (occupied cell, finished match, or an out-of-range index,
which always errors), the environment is returned exactly as it was — and an
action index at or beyond the board length always raises. -/
theorem C10_executarJogada_atomica :
    (∀ (a : Ambiente) (acao : ℕ) (e : ErroJogada),
      (executarJogada a acao).1 = Except.error e → (executarJogada a acao).2 = a) ∧
    (∀ (a : Ambiente) (acao : ℕ), a.tabuleiro.length ≤ acao →
      (executarJogada a acao).1 = Except.error (ErroJogada.acaoInvalida acao)) := by
  constructor
  · intro a acao e h
    unfold executarJogada at h ⊢
    by_cases h1 : a.tabuleiro.get? acao ≠ some 0
    · rw [if_pos h1]
    · rw [if_neg h1] at h ⊢
      by_cases h2 : a.partidaFinalizada = true
      · rw [if_pos h2]
      · rw [if_neg h2] at h
        exact absurd h (by simp)
  · intro a acao h
    have hn : a.tabuleiro.get? acao = none := List.get?_eq_none.mpr h
    rw [List.get?_eq_getElem?] at hn
    unfold executarJogada
    rw [if_pos (by simp [hn])]

/-- C10 witness: an out-of-range action on a concrete environment raises and
leaves the environment untouched, through the theorem itself. -/
theorem C10_testemunha :
    ambienteOcupado.tabuleiro.length ≤ 99 ∧
    (executarJogada ambienteOcupado 99).2 = ambienteOcupado := by
  refine ⟨by decide, C10_executarJogada_atomica.1 ambienteOcupado 99
    (ErroJogada.acaoInvalida 99)
    (C10_executarJogada_atomica.2 ambienteOcupado 99 (by decide))⟩

/-- The claim's conflict resolution: keep the entry present in either table,
and the maximum where both record a value. -/
def valorMesclado : Option ℚ → Option ℚ → Option ℚ
  | none, none => none
  | some v, none => some v
  | none, some v => some v
  | some va, some vb => some (max va vb)

/-- The inner loop of `mesclarTabelasQ` for a state both tables know: action
by action, copy a new action or keep the strictly greater value. -/
def mesclarAcoes (m : TabelaQ) (estadoO : ChaveEstado) (acoesO : TabelaAcoes) : TabelaQ :=
  acoesO.foldl (fun m' par =>
    match buscarValorQ m' estadoO par.1 with
    | none => atribuirValorQ m' estadoO par.1 par.2
    | some valorQExistente =>
        if par.2 > valorQExistente then atribuirValorQ m' estadoO par.1 par.2
        else m') m

/-- `mesclarTabelasQ` (the pure merge at the heart of mesclarModelos.js; file
loading, statistics counters and saving are stripped): start from a copy of
the first table and fold the second table's states over it. -/
def mesclarTabelasQ (tabelaQX tabelaQO : TabelaQ) : TabelaQ :=
  tabelaQO.foldl (fun m par =>
    match buscarEstado m par.1 with
    | none => atribuir m par.1 par.2
    | some _ => mesclarAcoes m par.1 par.2) tabelaQX

/-- Well-formedness that every JS object of objects satisfies: no duplicate
state keys and no duplicate action keys inside a state. -/
def TabelaBemFormada (t : TabelaQ) : Prop :=
  (t.map Prod.fst).Nodup ∧ ∀ par ∈ t, (par.2.map Prod.fst).Nodup

theorem valorMesclado_none_right (x : Option ℚ) : valorMesclado x none = x := by
  cases x <;> rfl

theorem valorMesclado_none_left (y : Option ℚ) : valorMesclado none y = y := by
  cases y <;> rfl

theorem valorMesclado_comm (x y : Option ℚ) : valorMesclado x y = valorMesclado y x := by
  cases x <;> cases y <;> simp [valorMesclado, max_comm]

theorem busca_eq_none_of_not_mem {α β : Type} [DecidableEq α] {l : List (α × β)} {k : α}
    (h : k ∉ l.map Prod.fst) : busca l k = none := by
  induction l with
  | nil => rfl
  | cons p resto ih =>
      obtain ⟨k0, v0⟩ := p
      simp only [List.map_cons, List.mem_cons] at h
      push_neg at h
      simp only [busca]
      rw [if_neg (fun hc : k0 = k => h.1 hc.symm)]
      exact ih h.2

theorem mesclarAcoes_spec :
    ∀ (acoesO : TabelaAcoes) (m : TabelaQ) (estadoO : ChaveEstado),
      (acoesO.map Prod.fst).Nodup →
      (buscarEstado m estadoO).isSome = true →
      (∀ a, buscarValorQ (mesclarAcoes m estadoO acoesO) estadoO a =
        valorMesclado (buscarValorQ m estadoO a) (busca acoesO a)) ∧
      (∀ e a, e ≠ estadoO →
        buscarValorQ (mesclarAcoes m estadoO acoesO) e a = buscarValorQ m e a) ∧
      (∀ e, (buscarEstado (mesclarAcoes m estadoO acoesO) e).isSome =
        (buscarEstado m e).isSome) := by
  intro acoesO
  induction acoesO with
  | nil =>
      intro m estadoO _ _
      refine ⟨fun a => ?_, fun e a _ => rfl, fun e => rfl⟩
      simp [mesclarAcoes, busca, valorMesclado_none_right]
  | cons par resto ih =>
      intro m estadoO hnd hpres
      obtain ⟨a0, v0⟩ := par
      simp only [List.map_cons, List.nodup_cons] at hnd
      have hpasso : mesclarAcoes m estadoO ((a0, v0) :: resto) =
          mesclarAcoes (match buscarValorQ m estadoO a0 with
            | none => atribuirValorQ m estadoO a0 v0
            | some valorQExistente =>
                if v0 > valorQExistente then atribuirValorQ m estadoO a0 v0 else m)
            estadoO resto := by
        simp [mesclarAcoes]
      set m1 := (match buscarValorQ m estadoO a0 with
        | none => atribuirValorQ m estadoO a0 v0
        | some valorQExistente =>
            if v0 > valorQExistente then atribuirValorQ m estadoO a0 v0 else m)
        with hm1
      have f1 : ∀ a, buscarValorQ m1 estadoO a =
          if a = a0 then valorMesclado (buscarValorQ m estadoO a0) (some v0)
          else buscarValorQ m estadoO a := by
        intro a
        rw [hm1]
        cases hv : buscarValorQ m estadoO a0 with
        | none =>
            simp only [buscarValorQ_atribuirValorQ, if_pos rfl, valorMesclado]
            by_cases ha : a = a0
            · simp [ha]
            · simp [ha, hv]
        | some ve =>
            by_cases hgt : v0 > ve
            · simp only [if_pos hgt, buscarValorQ_atribuirValorQ, if_pos rfl,
                valorMesclado]
              by_cases ha : a = a0
              · simp [ha, max_eq_right (le_of_lt hgt)]
              · simp [ha]
            · simp only [if_neg hgt, valorMesclado]
              by_cases ha : a = a0
              · simp [ha, hv, max_eq_left (not_lt.mp hgt)]
              · simp [ha]
      have f2 : ∀ e a, e ≠ estadoO → buscarValorQ m1 e a = buscarValorQ m e a := by
        intro e a he
        rw [hm1]
        cases hv : buscarValorQ m estadoO a0 with
        | none => simp [buscarValorQ_atribuirValorQ, he]
        | some ve =>
            by_cases hgt : v0 > ve
            · simp [hgt, buscarValorQ_atribuirValorQ, he]
            · simp [hgt]
      have f3 : ∀ e, (buscarEstado m1 e).isSome = (buscarEstado m e).isSome := by
        intro e
        rw [hm1]
        cases hv : buscarValorQ m estadoO a0 with
        | none =>
            rw [buscarEstado_atribuirValorQ_isSome]
            by_cases he : e = estadoO
            · simp [he, hpres]
            · simp [he]
        | some ve =>
            by_cases hgt : v0 > ve
            · simp only [if_pos hgt]
              rw [buscarEstado_atribuirValorQ_isSome]
              by_cases he : e = estadoO
              · simp [he, hpres]
              · simp [he]
            · simp [hgt]
      have hpres1 : (buscarEstado m1 estadoO).isSome = true := by
        rw [f3]; exact hpres
      obtain ⟨ih1, ih2, ih3⟩ := ih m1 estadoO hnd.2 hpres1
      rw [hpasso]
      refine ⟨fun a => ?_, fun e a he => ?_, fun e => ?_⟩
      · rw [ih1 a, f1 a]
        by_cases ha : a = a0
        · subst ha
          have hres : busca resto a = none :=
            busca_eq_none_of_not_mem hnd.1
          simp [busca, hres, valorMesclado_none_right]
        · simp [busca, Ne.symm ha, ha]
      · rw [ih2 e a he, f2 e a he]
      · rw [ih3 e, f3 e]

theorem mesclarTabelasQ_spec :
    ∀ (tO tX : TabelaQ),
      (tO.map Prod.fst).Nodup →
      (∀ par ∈ tO, (par.2.map Prod.fst).Nodup) →
      (∀ e a, buscarValorQ (mesclarTabelasQ tX tO) e a =
        valorMesclado (buscarValorQ tX e a) (buscarValorQ tO e a)) ∧
      (∀ e, (buscarEstado (mesclarTabelasQ tX tO) e).isSome =
        ((buscarEstado tX e).isSome || (buscarEstado tO e).isSome)) := by
  intro tO
  induction tO with
  | nil =>
      intro tX _ _
      refine ⟨fun e a => ?_, fun e => ?_⟩
      · simp [mesclarTabelasQ, buscarValorQ, busca, valorMesclado_none_right]
      · simp [mesclarTabelasQ, buscarEstado, busca]
  | cons par resto ih =>
      intro tX hnd hin
      obtain ⟨e0, acts0⟩ := par
      simp only [List.map_cons, List.nodup_cons] at hnd
      have hpasso : mesclarTabelasQ tX ((e0, acts0) :: resto) =
          mesclarTabelasQ (match buscarEstado tX e0 with
            | none => atribuir tX e0 acts0
            | some _ => mesclarAcoes tX e0 acts0) resto := by
        simp [mesclarTabelasQ]
      set m1 := (match buscarEstado tX e0 with
        | none => atribuir tX e0 acts0
        | some _ => mesclarAcoes tX e0 acts0) with hm1
      have hacts0 : (acts0.map Prod.fst).Nodup := hin (e0, acts0) (by simp)
      have g1 : ∀ a, buscarValorQ m1 e0 a =
          valorMesclado (buscarValorQ tX e0 a) (busca acts0 a) := by
        intro a
        rw [hm1]
        cases hv : buscarEstado tX e0 with
        | none =>
            have hb : busca tX e0 = none := hv
            unfold buscarValorQ
            rw [busca_atribuir]
            simp [hb, valorMesclado_none_left]
        | some acts =>
            exact (mesclarAcoes_spec acts0 tX e0 hacts0 (by simp [hv])).1 a
      have g2 : ∀ e a, e ≠ e0 → buscarValorQ m1 e a = buscarValorQ tX e a := by
        intro e a he
        rw [hm1]
        cases hv : buscarEstado tX e0 with
        | none =>
            unfold buscarValorQ
            rw [busca_atribuir, if_neg he]
        | some acts =>
            exact (mesclarAcoes_spec acts0 tX e0 hacts0 (by simp [hv])).2.1 e a he
      have g3 : ∀ e, (buscarEstado m1 e).isSome =
          ((buscarEstado tX e).isSome || decide (e = e0)) := by
        intro e
        rw [hm1]
        cases hv : buscarEstado tX e0 with
        | none =>
            unfold buscarEstado
            rw [busca_atribuir]
            by_cases he : e = e0
            · simp [he]
            · simp [he]
        | some acts =>
            rw [(mesclarAcoes_spec acts0 tX e0 hacts0 (by simp [hv])).2.2 e]
            by_cases he : e = e0
            · subst he
              simp [hv, buscarEstado] at hv ⊢
              simp [hv]
            · simp [he]
      obtain ⟨ih1, ih2⟩ := ih m1 hnd.2 (fun p hp => hin p (List.mem_cons_of_mem _ hp))
      rw [hpasso]
      refine ⟨fun e a => ?_, fun e => ?_⟩
      · rw [ih1 e a]
        by_cases he : e = e0
        · subst he
          have hres : busca resto e = none := busca_eq_none_of_not_mem hnd.1
          have hcons : buscarValorQ ((e, acts0) :: resto) e a = busca acts0 a := by
            unfold buscarValorQ
            simp [busca]
          have hresto : buscarValorQ resto e a = none := by
            unfold buscarValorQ
            rw [hres]
          rw [hcons, hresto, valorMesclado_none_right, g1 a]
        · have hcons : buscarValorQ ((e0, acts0) :: resto) e a =
              buscarValorQ resto e a := by
            unfold buscarValorQ
            simp [busca, Ne.symm he]
          rw [hcons, g2 e a he]
      · rw [ih2 e, g3 e]
        by_cases he : e = e0
        · subst he
          simp [buscarEstado, busca]
        · simp [buscarEstado, busca, Ne.symm he, he]

/-- C3 (confirmed): for well-formed inputs (JS objects have no duplicate
keys), the merge keeps every state key of either input, its value at every
(state, action) pair is the entry of the input that records it — the maximum
of the two where both record it — so no entry is ever lost, and the value at
every (state, action) pair is independent of the argument order. -/
theorem C3_mesclarTabelasQ :
    ∀ (tA tB : TabelaQ), TabelaBemFormada tA → TabelaBemFormada tB →
      (∀ e, (buscarEstado (mesclarTabelasQ tA tB) e).isSome =
        ((buscarEstado tA e).isSome || (buscarEstado tB e).isSome)) ∧
      (∀ e a, buscarValorQ (mesclarTabelasQ tA tB) e a =
        valorMesclado (buscarValorQ tA e a) (buscarValorQ tB e a)) ∧
      (∀ e a va vb, buscarValorQ tA e a = some va → buscarValorQ tB e a = some vb →
        buscarValorQ (mesclarTabelasQ tA tB) e a = some (max va vb)) ∧
      (∀ e a, buscarValorQ (mesclarTabelasQ tA tB) e a =
        buscarValorQ (mesclarTabelasQ tB tA) e a) := by
  intro tA tB hA hB
  obtain ⟨pAB, sAB⟩ := mesclarTabelasQ_spec tB tA hB.1 hB.2
  obtain ⟨pBA, sBA⟩ := mesclarTabelasQ_spec tA tB hA.1 hA.2
  refine ⟨sAB, pAB, fun e a va vb hva hvb => ?_, fun e a => ?_⟩
  · rw [pAB e a, hva, hvb]
    rfl
  · rw [pAB e a, pBA e a, valorMesclado_comm]

/-- A small well-formed Q-table for the merge witness. -/
def tabelaExemploA : TabelaQ :=
  [([1, 0, 0, 0, 0, 0, 0, 0, 0], [(1, 2), (2, 1)])]

/-- A second well-formed Q-table sharing one state with the first and
carrying one extra state. -/
def tabelaExemploB : TabelaQ :=
  [([1, 0, 0, 0, 0, 0, 0, 0, 0], [(1, 5)]), ([2, 0, 0, 0, 0, 0, 0, 0, 0], [(0, 3)])]

/-- C3 witness: the conflicting entry resolves to the maximum, through the
theorem itself at two concrete well-formed tables. -/
theorem C3_testemunha :
    TabelaBemFormada tabelaExemploA ∧ TabelaBemFormada tabelaExemploB ∧
    buscarValorQ (mesclarTabelasQ tabelaExemploA tabelaExemploB)
      [1, 0, 0, 0, 0, 0, 0, 0, 0] 1 = some (max 2 5) := by
  refine ⟨⟨by decide, by decide⟩, ⟨by decide, by decide⟩, ?_⟩
  exact (C3_mesclarTabelasQ tabelaExemploA tabelaExemploB
    ⟨by decide, by decide⟩ ⟨by decide, by decide⟩).2.2.1
    [1, 0, 0, 0, 0, 0, 0, 0, 0] 1 2 5 (by decide) (by decide)

/-- The injectable random source (`Math.random()`): a stream of draws and the
position of the next one. -/
structure Sorteador where
  valores : ℕ → ℚ
  posicao : ℕ

/-- One `Math.random()` call. -/
def sortear (s : Sorteador) : ℚ × Sorteador :=
  (s.valores s.posicao, { s with posicao := s.posicao + 1 })

/-- `AgenteQLearning.#escolherMelhorAcao`: evaluate `obterValorQ` for every
valid action (threading the lazy table insertions), take the maximum, filter
the ties, and pick one uniformly (`melhoresAcoes[⌊random·len⌋]`).  The JS
object `valoresQDasAcoes` enumerates its integer-like keys in ascending
order; callers pass `acoesValidas` ascending and duplicate-free, for which
that coincides with the insertion order used here. -/
def escolherMelhorAcao (t : TabelaQ) (estado : ChaveEstado) (acoesValidas : List ℕ)
    (s : Sorteador) : ℕ × TabelaQ × Sorteador :=
  let par := acoesValidas.foldl (fun (acc : TabelaAcoes × TabelaQ) acao =>
      let r := obterValorQ acc.2 estado acao
      (atribuir acc.1 acao r.1, r.2)) ([], t)
  let valoresQDasAcoes := par.1
  let t1 := par.2
  let valorMaximoQ := match valoresQDasAcoes with
    | [] => 0
    | (_, v) :: resto => (resto.map Prod.snd).foldl max v
  let melhoresAcoes :=
    (valoresQDasAcoes.filter (fun p => decide (p.2 = valorMaximoQ))).map Prod.fst
  let par2 := sortear s
  let indice := (Rat.floor (par2.1 * (melhoresAcoes.length : ℚ))).toNat
  (melhoresAcoes.getD indice 0, t1, par2.2)

/-- `AgenteQLearning.escolherAcao` (epsilon-greedy): error on an empty action
list; outside training always the greedy choice; in training one draw decides
between a uniformly random action and the greedy choice. -/
def escolherAcao (epsilon : ℚ) (t : TabelaQ) (estado : ChaveEstado)
    (acoesValidas : List ℕ) (emTreinamento : Bool) (s : Sorteador) :
    Except String (ℕ × TabelaQ × Sorteador) :=
  if acoesValidas.length = 0 then
    Except.error "Nao ha acoes validas para escolher."
  else if emTreinamento = false then
    Except.ok (escolherMelhorAcao t estado acoesValidas s)
  else if (sortear s).1 < epsilon then
    Except.ok
      (acoesValidas.getD
        ((Rat.floor ((sortear (sortear s).2).1 * (acoesValidas.length : ℚ))).toNat) 0,
        t, (sortear (sortear s).2).2)
  else
    Except.ok (escolherMelhorAcao t estado acoesValidas (sortear s).2)

/-- The state threaded through `Treinador.avaliarAgentes`: the environment,
both agents' Q-tables, the random source, the aggregate counters, and whether
an in-episode error aborted the run. -/
structure EstadoAvaliacao where
  ambiente : Ambiente
  tabelaX : TabelaQ
  tabelaO : TabelaQ
  sorteador : Sorteador
  vitoriasX : ℕ
  vitoriasO : ℕ
  empates : ℕ
  erro : Bool

/-- One iteration of the evaluation while-loop: the agent to move chooses
greedily (`emTreinamento = false`) and the action is applied. -/
def passoPartidaAvaliacao (ep : EstadoAvaliacao) : EstadoAvaliacao :=
  let vezX := ep.ambiente.jogadorAtual = 1
  let t := if vezX then ep.tabelaX else ep.tabelaO
  let estado := obterEstadoComoTupla ep.ambiente
  let acoes := obterAcoesValidas ep.ambiente
  match escolherAcao 0 t estado acoes false ep.sorteador with
  | Except.error _ => { ep with erro := true }
  | Except.ok (acao, t1, s1) =>
      let ep1 := if vezX then { ep with tabelaX := t1, sorteador := s1 }
                 else { ep with tabelaO := t1, sorteador := s1 }
      match executarJogada ep1.ambiente acao with
      | (Except.error _, amb2) => { ep1 with ambiente := amb2, erro := true }
      | (Except.ok _, amb2) => { ep1 with ambiente := amb2 }

/-- The evaluation while-loop, with fuel (each successful step fills a cell,
so `numeroDeCasas + 1` iterations always suffice). -/
def rodarPartidaAvaliacao : ℕ → EstadoAvaliacao → EstadoAvaliacao
  | 0, ep => ep
  | n + 1, ep =>
      if ep.erro then ep
      else if ep.ambiente.partidaFinalizada then ep
      else rodarPartidaAvaliacao n (passoPartidaAvaliacao ep)

/-- The win/draw tally at the end of one evaluation episode. -/
def contabilizarResultado (ep : EstadoAvaliacao) : EstadoAvaliacao :=
  if ep.ambiente.vencedor = some 1 then { ep with vitoriasX := ep.vitoriasX + 1 }
  else if ep.ambiente.vencedor = some 2 then { ep with vitoriasO := ep.vitoriasO + 1 }
  else { ep with empates := ep.empates + 1 }

/-- One evaluation episode: reset (one draw for the starting player), play
to completion greedily, tally the result. -/
def avaliarEpisodio (ep : EstadoAvaliacao) : EstadoAvaliacao :=
  let par := sortear ep.sorteador
  let ep1 := { ep with ambiente := reiniciarPartida ep.ambiente par.1,
                       sorteador := par.2 }
  let ep2 := rodarPartidaAvaliacao (ep1.ambiente.numeroDeCasas + 1) ep1
  if ep2.erro then ep2 else contabilizarResultado ep2

/-- The episode loop of `avaliarAgentes`; an in-episode exception aborts the
remaining episodes (it propagates out of the method in the source). -/
def avaliarLoop : ℕ → EstadoAvaliacao → EstadoAvaliacao
  | 0, ep => ep
  | n + 1, ep =>
      let ep1 := avaliarEpisodio ep
      if ep1.erro then ep1 else avaliarLoop n ep1

/-- `Treinador.avaliarAgentes`: when an agent's table is empty the persisted
model is loaded from disk first (`discoX`/`discoO` stand for the parsed file
contents, `none` for a missing file, which yields a cold-start empty table);
then the episode loop runs with both agents greedy. -/
def avaliarAgentes (ep : EstadoAvaliacao) (discoX discoO : Option TabelaQ)
    (numeroDePartidas : ℕ) : EstadoAvaliacao :=
  let ep0 := if ep.tabelaX.length = 0 then { ep with tabelaX := discoX.getD [] } else ep
  let ep1 := if ep0.tabelaO.length = 0 then { ep0 with tabelaO := discoO.getD [] } else ep0
  avaliarLoop numeroDePartidas ep1

/-- A deterministic random source: every draw is 0. -/
def sorteadorZero : Sorteador := { valores := fun _ => 0, posicao := 0 }

/-- A fresh 3×3 evaluation environment. -/
def ambienteAvaliacaoExemplo : Ambiente :=
  { dimensao := 3, numeroDeCasas := 9, jogadorInicial := 1,
    combinacoesDeVitoria := gerarCombinacoesDeVitoria 3,
    tabuleiro := List.replicate 9 0, jogadorAtual := 1,
    partidaFinalizada := false, vencedor := none }

/-- A non-empty trained table for agent X (so the disk auto-load is skipped):
it values action 0 of the empty board at 2.0. -/
def tabelaAvaliacaoX : TabelaQ := [(List.replicate 9 0, [(0, 2)])]

/-- A non-empty trained table for agent O. -/
def tabelaAvaliacaoO : TabelaQ := [(List.replicate 9 0, [(0, 2)])]

/-- The evaluation run's initial state for the counterexample. -/
def estadoAvaliacaoExemplo : EstadoAvaliacao :=
  { ambiente := ambienteAvaliacaoExemplo, tabelaX := tabelaAvaliacaoX,
    tabelaO := tabelaAvaliacaoO, sorteador := sorteadorZero,
    vitoriasX := 0, vitoriasO := 0, empates := 0, erro := false }

unseal Rat.add Rat.mul Rat.inv Rat.sub in
/-- C5 counterexample: one evaluation episode changes agent X's Q-table — the
greedy choice reads every valid action through `obterValorQ`, which records
missing entries with value 0.0, so after the run the table holds states and
actions it did not hold before. -/
theorem C5_contraexemplo :
    (avaliarAgentes estadoAvaliacaoExemplo none none 1).tabelaX ≠ tabelaAvaliacaoX := by
  decide

/-- Preservation between two Q-tables: every recorded entry keeps its exact
value, and any new entry carries the default value 0.0. -/
def tabelaPreservada (t t' : TabelaQ) : Prop :=
  (∀ e a v, buscarValorQ t e a = some v → buscarValorQ t' e a = some v) ∧
  (∀ e a v, buscarValorQ t' e a = some v → buscarValorQ t e a = some v ∨ v = 0)

theorem tabelaPreservada_refl (t : TabelaQ) : tabelaPreservada t t :=
  ⟨fun _ _ _ h => h, fun _ _ _ h => Or.inl h⟩

theorem tabelaPreservada_trans {t1 t2 t3 : TabelaQ} (h12 : tabelaPreservada t1 t2)
    (h23 : tabelaPreservada t2 t3) : tabelaPreservada t1 t3 := by
  refine ⟨fun e a v h => h23.1 e a v (h12.1 e a v h), fun e a v h => ?_⟩
  rcases h23.2 e a v h with h' | h'
  · exact h12.2 e a v h'
  · exact Or.inr h'

/-- The table component of `obterValorQ`: untouched when the entry exists,
otherwise the single write of the default 0.0 for the missing entry. -/
theorem obterValorQ_snd_eq (t : TabelaQ) (e : ChaveEstado) (a : ℕ) :
    (obterValorQ t e a).2 =
      if (buscarValorQ t e a).isSome then t else atribuirValorQ t e a 0 := by
  cases h : busca t e with
  | none =>
      have hq : buscarValorQ t e a = none := by simp only [buscarValorQ, h]
      rw [obterValorQ_of_busca_none a h, hq]
      simp only [Option.isSome_none, Bool.false_eq_true, if_false, atribuirValorQ, h]
  | some acoes =>
      cases h2 : busca acoes a with
      | none =>
          have hq : buscarValorQ t e a = none := by simp only [buscarValorQ, h, h2]
          rw [obterValorQ_of_busca_acao_none h h2, hq]
          simp only [Option.isSome_none, Bool.false_eq_true, if_false, atribuirValorQ, h]
          rw [atribuir_of_busca_none 0 h2]
      | some v =>
          have hq : buscarValorQ t e a = some v := by simp only [buscarValorQ, h, h2]
          rw [obterValorQ_of_busca_acao_some h h2, hq]
          rfl

theorem tabelaPreservada_atribuir_zero (t : TabelaQ) (e : ChaveEstado) (a : ℕ)
    (h : buscarValorQ t e a = none) : tabelaPreservada t (atribuirValorQ t e a 0) := by
  constructor
  · intro e' a' v hv
    rw [buscarValorQ_atribuirValorQ]
    by_cases he : e' = e
    · subst he
      by_cases ha : a' = a
      · subst ha
        rw [h] at hv
        exact Option.noConfusion hv
      · rw [if_pos rfl, if_neg ha]
        exact hv
    · rw [if_neg he]
      exact hv
  · intro e' a' v hv
    rw [buscarValorQ_atribuirValorQ] at hv
    by_cases he : e' = e
    · subst he
      by_cases ha : a' = a
      · subst ha
        rw [if_pos rfl, if_pos rfl] at hv
        right
        exact (Option.some.injEq _ _ ▸ hv).symm
      · rw [if_pos rfl, if_neg ha] at hv
        exact Or.inl hv
    · rw [if_neg he] at hv
      exact Or.inl hv

theorem tabelaPreservada_obterValorQ (t : TabelaQ) (e : ChaveEstado) (a : ℕ) :
    tabelaPreservada t (obterValorQ t e a).2 := by
  rw [obterValorQ_snd_eq]
  cases hq : buscarValorQ t e a with
  | none =>
      simp only [hq, Option.isSome_none, Bool.false_eq_true, if_false]
      exact tabelaPreservada_atribuir_zero t e a hq
  | some v =>
      simp only [hq, Option.isSome_some, if_true]
      exact tabelaPreservada_refl t

theorem tabelaPreservada_escolherFold (estado : ChaveEstado) :
    ∀ (acoes : List ℕ) (acc : TabelaAcoes) (t : TabelaQ),
      tabelaPreservada t
        ((acoes.foldl (fun (acc : TabelaAcoes × TabelaQ) acao =>
          let r := obterValorQ acc.2 estado acao
          (atribuir acc.1 acao r.1, r.2)) (acc, t)).2) := by
  intro acoes
  induction acoes with
  | nil => intro acc t; exact tabelaPreservada_refl t
  | cons a resto ih =>
      intro acc t
      simp only [List.foldl_cons]
      exact tabelaPreservada_trans (tabelaPreservada_obterValorQ t estado a)
        (ih _ ((obterValorQ t estado a).2))

theorem tabelaPreservada_escolherMelhorAcao (t : TabelaQ) (estado : ChaveEstado)
    (acoesValidas : List ℕ) (s : Sorteador) :
    tabelaPreservada t (escolherMelhorAcao t estado acoesValidas s).2.1 := by
  exact tabelaPreservada_escolherFold estado acoesValidas [] t

theorem tabelaPreservada_escolherAcao (epsilon : ℚ) (t : TabelaQ)
    (estado : ChaveEstado) (acoesValidas : List ℕ) (emTreinamento : Bool)
    (s : Sorteador) (acao : ℕ) (t1 : TabelaQ) (s1 : Sorteador)
    (h : escolherAcao epsilon t estado acoesValidas emTreinamento s =
      Except.ok (acao, t1, s1)) : tabelaPreservada t t1 := by
  unfold escolherAcao at h
  by_cases h0 : acoesValidas.length = 0
  · rw [if_pos h0] at h
    exact Except.noConfusion h
  · rw [if_neg h0] at h
    by_cases hem : emTreinamento = false
    · rw [if_pos hem] at h
      injection h with h'
      have hp := tabelaPreservada_escolherMelhorAcao t estado acoesValidas s
      rw [h'] at hp
      exact hp
    · rw [if_neg hem] at h
      by_cases hlt : (sortear s).1 < epsilon
      · rw [if_pos hlt] at h
        injection h with h'
        have ht : t = t1 := congrArg (fun p => p.2.1) h'
        rw [← ht]
        exact tabelaPreservada_refl t
      · rw [if_neg hlt] at h
        injection h with h'
        have hp := tabelaPreservada_escolherMelhorAcao t estado acoesValidas
          (sortear s).2
        rw [h'] at hp
        exact hp

theorem tabelaPreservada_passo (ep : EstadoAvaliacao) :
    tabelaPreservada ep.tabelaX (passoPartidaAvaliacao ep).tabelaX ∧
    tabelaPreservada ep.tabelaO (passoPartidaAvaliacao ep).tabelaO := by
  unfold passoPartidaAvaliacao
  by_cases hvez : ep.ambiente.jogadorAtual = 1
  · simp only [hvez, if_pos rfl, if_true, eq_self_iff_true]
    cases hm : escolherAcao 0 ep.tabelaX (obterEstadoComoTupla ep.ambiente)
        (obterAcoesValidas ep.ambiente) false ep.sorteador with
    | error err =>
        exact ⟨tabelaPreservada_refl _, tabelaPreservada_refl _⟩
    | ok trio =>
        obtain ⟨acao, t1, s1⟩ := trio
        have hp := tabelaPreservada_escolherAcao 0 ep.tabelaX
          (obterEstadoComoTupla ep.ambiente) (obterAcoesValidas ep.ambiente)
          false ep.sorteador acao t1 s1 hm
        cases hx : executarJogada ep.ambiente acao with
        | mk exc amb2 =>
            cases exc with
            | error err =>
                simp only [hx]
                exact ⟨hp, tabelaPreservada_refl _⟩
            | ok val =>
                simp only [hx]
                exact ⟨hp, tabelaPreservada_refl _⟩
  · simp only [hvez, if_neg hvez, if_false]
    cases hm : escolherAcao 0 ep.tabelaO (obterEstadoComoTupla ep.ambiente)
        (obterAcoesValidas ep.ambiente) false ep.sorteador with
    | error err =>
        exact ⟨tabelaPreservada_refl _, tabelaPreservada_refl _⟩
    | ok trio =>
        obtain ⟨acao, t1, s1⟩ := trio
        have hp := tabelaPreservada_escolherAcao 0 ep.tabelaO
          (obterEstadoComoTupla ep.ambiente) (obterAcoesValidas ep.ambiente)
          false ep.sorteador acao t1 s1 hm
        cases hx : executarJogada ep.ambiente acao with
        | mk exc amb2 =>
            cases exc with
            | error err =>
                simp only [hx]
                exact ⟨tabelaPreservada_refl _, hp⟩
            | ok val =>
                simp only [hx]
                exact ⟨tabelaPreservada_refl _, hp⟩

theorem tabelaPreservada_rodar :
    ∀ (n : ℕ) (ep : EstadoAvaliacao),
      tabelaPreservada ep.tabelaX (rodarPartidaAvaliacao n ep).tabelaX ∧
      tabelaPreservada ep.tabelaO (rodarPartidaAvaliacao n ep).tabelaO := by
  intro n
  induction n with
  | zero => intro ep; exact ⟨tabelaPreservada_refl _, tabelaPreservada_refl _⟩
  | succ m ih =>
      intro ep
      unfold rodarPartidaAvaliacao
      by_cases h1 : ep.erro = true
      · rw [if_pos h1]
        exact ⟨tabelaPreservada_refl _, tabelaPreservada_refl _⟩
      · rw [if_neg h1]
        by_cases h2 : ep.ambiente.partidaFinalizada = true
        · rw [if_pos h2]
          exact ⟨tabelaPreservada_refl _, tabelaPreservada_refl _⟩
        · rw [if_neg h2]
          obtain ⟨px, po⟩ := tabelaPreservada_passo ep
          obtain ⟨qx, qo⟩ := ih (passoPartidaAvaliacao ep)
          exact ⟨tabelaPreservada_trans px qx, tabelaPreservada_trans po qo⟩

theorem contabilizarResultado_tabelas (ep : EstadoAvaliacao) :
    (contabilizarResultado ep).tabelaX = ep.tabelaX ∧
    (contabilizarResultado ep).tabelaO = ep.tabelaO := by
  unfold contabilizarResultado
  split_ifs <;> exact ⟨rfl, rfl⟩

theorem tabelaPreservada_episodio (ep : EstadoAvaliacao) :
    tabelaPreservada ep.tabelaX (avaliarEpisodio ep).tabelaX ∧
    tabelaPreservada ep.tabelaO (avaliarEpisodio ep).tabelaO := by
  unfold avaliarEpisodio
  set ep1 : EstadoAvaliacao :=
    { ep with ambiente := reiniciarPartida ep.ambiente (sortear ep.sorteador).1,
              sorteador := (sortear ep.sorteador).2 } with hep1
  set ep2 := rodarPartidaAvaliacao (ep1.ambiente.numeroDeCasas + 1) ep1 with hep2
  have hr := tabelaPreservada_rodar (ep1.ambiente.numeroDeCasas + 1) ep1
  rw [← hep2] at hr
  have hx1 : ep1.tabelaX = ep.tabelaX := rfl
  have ho1 : ep1.tabelaO = ep.tabelaO := rfl
  rw [hx1, ho1] at hr
  by_cases herro : ep2.erro = true
  · rw [if_pos herro]
    exact hr
  · rw [if_neg herro]
    obtain ⟨cx, co⟩ := contabilizarResultado_tabelas ep2
    rw [cx, co]
    exact hr

theorem tabelaPreservada_avaliarLoop :
    ∀ (n : ℕ) (ep : EstadoAvaliacao),
      tabelaPreservada ep.tabelaX (avaliarLoop n ep).tabelaX ∧
      tabelaPreservada ep.tabelaO (avaliarLoop n ep).tabelaO := by
  intro n
  induction n with
  | zero => intro ep; exact ⟨tabelaPreservada_refl _, tabelaPreservada_refl _⟩
  | succ m ih =>
      intro ep
      unfold avaliarLoop
      obtain ⟨px, po⟩ := tabelaPreservada_episodio ep
      by_cases herro : (avaliarEpisodio ep).erro = true
      · rw [if_pos herro]
        exact ⟨px, po⟩
      · rw [if_neg herro]
        obtain ⟨qx, qo⟩ := ih (avaliarEpisodio ep)
        exact ⟨tabelaPreservada_trans px qx, tabelaPreservada_trans po qo⟩

/-- C5 (corrected): an evaluation run whose agents enter with non-empty
Q-tables (so the documented disk auto-load is skipped) never changes or
removes any recorded (state, action) value of either agent; but the tables
are not left unchanged — greedy action selection reads unseen entries through
`obterValorQ`, which persists them with the default value 0.0, so evaluation
may add default-valued entries. -/
theorem C5_avaliacao_preserva (ep : EstadoAvaliacao) (discoX discoO : Option TabelaQ)
    (numeroDePartidas : ℕ) (hX : ep.tabelaX ≠ []) (hO : ep.tabelaO ≠ []) :
    tabelaPreservada ep.tabelaX
      (avaliarAgentes ep discoX discoO numeroDePartidas).tabelaX ∧
    tabelaPreservada ep.tabelaO
      (avaliarAgentes ep discoX discoO numeroDePartidas).tabelaO := by
  unfold avaliarAgentes
  simp only [show (ep.tabelaX.length = 0) = False from
      eq_false (by simp [List.length_eq_zero, hX]),
    show (ep.tabelaO.length = 0) = False from
      eq_false (by simp [List.length_eq_zero, hO]), if_false]
  exact tabelaPreservada_avaliarLoop numeroDePartidas ep

/-- C5 witness: the preservation statement at the concrete one-episode
evaluation run of the counterexample, through the theorem itself. -/
theorem C5_testemunha :
    tabelaAvaliacaoX ≠ [] ∧
    tabelaPreservada tabelaAvaliacaoX
      (avaliarAgentes estadoAvaliacaoExemplo none none 1).tabelaX := by
  exact ⟨by decide, (C5_avaliacao_preserva estadoAvaliacaoExemplo none none 1
    (by decide) (by decide)).1⟩

/-- The character codes of `String(n)` for a natural number: 48 ('0') for 0,
otherwise the decimal digits most-significant first, each offset by 48. -/
def renderizarNumero (n : ℕ) : List ℕ :=
  if n = 0 then [48] else ((Nat.digits 10 n).reverse).map (fun d => d + 48)

/-- Parsing a decimal digit string (as character codes) back to a number. -/
def analisarNumero (cs : List ℕ) : Option ℕ :=
  if cs ≠ [] ∧ cs.all (fun c => decide (48 ≤ c ∧ c ≤ 57)) then
    some (Nat.ofDigits 10 ((cs.map (fun c => c - 48)).reverse))
  else none

/-- The character codes of `JSON.stringify(tabuleiro)`: an opening bracket
(91), the cell numbers separated by commas (44), a closing bracket (93). -/
def renderizarChave (tabuleiro : List ℕ) : List ℕ :=
  91 :: (List.intercalate [44] (tabuleiro.map renderizarNumero) ++ [93])

/-- Sequential parsing of a list, failing when any element fails (the
Option-valued map used by the loaders below). -/
def analisarLista {A B : Type} (f : A → Option B) : List A → Option (List B)
  | [] => some []
  | x :: resto =>
      match f x, analisarLista f resto with
      | some y, some ys => some (y :: ys)
      | _, _ => none

/-- Parsing a serialized board key back to the board. -/
def analisarChave (cs : List ℕ) : Option (List ℕ) :=
  match cs with
  | [] => none
  | c :: resto =>
      if c = 91 then
        if resto.getLast? = some 93 then
          if resto.dropLast = [] then some []
          else analisarLista analisarNumero (resto.dropLast.splitOn 44)
        else none
      else none

theorem analisarNumero_renderizarNumero (n : ℕ) :
    analisarNumero (renderizarNumero n) = some n := by
  by_cases h : n = 0
  · subst h
    decide
  · unfold renderizarNumero analisarNumero
    rw [if_neg h]
    have hne : ((Nat.digits 10 n).reverse.map (fun d => d + 48)) ≠ [] := by
      simp [Nat.digits_ne_nil_iff_ne_zero, h]
    have hall : ((Nat.digits 10 n).reverse.map (fun d => d + 48)).all
        (fun c => decide (48 ≤ c ∧ c ≤ 57)) = true := by
      simp only [List.all_eq_true, List.mem_map, List.mem_reverse]
      rintro c ⟨d, hd, rfl⟩
      have hd10 : d < 10 := Nat.digits_lt_base (by norm_num) hd
      simp only [decide_eq_true_eq]
      omega
    rw [if_pos ⟨hne, hall⟩]
    rw [List.map_map]
    have hid : ((fun c => c - 48) ∘ (fun d => d + 48)) = fun d => d := by
      funext d
      simp
    rw [hid, List.map_id', List.reverse_reverse, Nat.ofDigits_digits]

theorem renderizarNumero_codigos (n : ℕ) :
    ∀ c ∈ renderizarNumero n, 48 ≤ c := by
  unfold renderizarNumero
  by_cases h : n = 0
  · simp [h]
  · rw [if_neg h]
    simp only [List.mem_map, List.mem_reverse]
    rintro c ⟨d, _, rfl⟩
    omega

theorem renderizarNumero_ne_nil (n : ℕ) : renderizarNumero n ≠ [] := by
  unfold renderizarNumero
  by_cases h : n = 0
  · simp [h]
  · rw [if_neg h]
    simp [Nat.digits_ne_nil_iff_ne_zero, h]

theorem intercalate_cons_eq_append {α : Type} (sep : List α) (a : List α)
    (l : List (List α)) : ∃ t, List.intercalate sep (a :: l) = a ++ t := by
  cases l with
  | nil => exact ⟨[], by simp [List.intercalate]⟩
  | cons b t =>
      refine ⟨sep ++ List.intercalate sep (b :: t), ?_⟩
      simp [List.intercalate, List.intersperse]

theorem analisarChave_renderizarChave (b : List ℕ) :
    analisarChave (renderizarChave b) = some b := by
  unfold renderizarChave analisarChave
  simp only [if_pos rfl]
  rw [if_pos (List.getLast?_concat _), List.dropLast_concat]
  cases b with
  | nil =>
      simp [List.intercalate]
  | cons x xs =>
      have hne : List.intercalate [44] ((x :: xs).map renderizarNumero) ≠ [] := by
        obtain ⟨t, ht⟩ := intercalate_cons_eq_append [44] (renderizarNumero x)
          (xs.map renderizarNumero)
        simp only [List.map_cons, ht]
        exact fun hc => renderizarNumero_ne_nil x (by
          cases hx : renderizarNumero x with
          | nil => rfl
          | cons y ys => rw [hx] at hc; exact List.noConfusion hc)
      rw [if_neg hne]
      have hsplit : (List.intercalate [44] ((x :: xs).map renderizarNumero)).splitOn 44 =
          (x :: xs).map renderizarNumero := by
        refine List.splitOn_intercalate _ 44 ?_ ?_
        · intro l hl
          simp only [List.mem_map] at hl
          obtain ⟨m, _, rfl⟩ := hl
          intro hc
          have := renderizarNumero_codigos m 44 hc
          omega
        · simp
      rw [hsplit]
      have hlista : ∀ (l : List ℕ),
          analisarLista analisarNumero (l.map renderizarNumero) = some l := by
        intro l
        induction l with
        | nil => rfl
        | cons y ys ih =>
            simp [analisarLista, analisarNumero_renderizarNumero, ih]
      exact hlista (x :: xs)

/-- The JSON documents exchanged by `salvarMemoria` and `carregar`: objects
(keys as character-code strings) and numbers (exact, per the claim's
floating-point caveat).  The persisted Q-table file only uses these two
forms. -/
inductive Json where
  | num (valor : ℚ)
  | obj (membros : List (List ℕ × Json))

/-- `salvarMemoria` (the `JSON.stringify(this.tabelaQ)` document written to
the file; the directory handling and the byte-level rendering of this tree —
which JSON defines to be lossless for objects of finitely many keys — are
outside the embedding): each state serializes to its board string, each
action index to its decimal string, each value to a number. -/
def salvarMemoria (t : TabelaQ) : Json :=
  Json.obj (t.map (fun par =>
    (renderizarChave par.1,
      Json.obj (par.2.map (fun pa => (renderizarNumero pa.1, Json.num pa.2))))))

/-- One action entry of a parsed state object. -/
def analisarAcao : List ℕ × Json → Option (ℕ × ℚ)
  | (chave, Json.num v) => (analisarNumero chave).map (fun a => (a, v))
  | _ => none

/-- One state entry of the parsed top-level object. -/
def analisarEntrada : List ℕ × Json → Option (ChaveEstado × TabelaAcoes)
  | (chave, Json.obj acoes) =>
      match analisarChave chave with
      | none => none
      | some estado => (analisarLista analisarAcao acoes).map (fun l => (estado, l))
  | _ => none

/-- `carregar` (the `JSON.parse` of the persisted file, read back into the
in-memory table representation; the filesystem check and agent construction
around it are outside the embedding). -/
def carregar (dados : Json) : Option TabelaQ :=
  match dados with
  | Json.obj membros => analisarLista analisarEntrada membros
  | _ => none

theorem analisarAcao_renderizar (pa : ℕ × ℚ) :
    analisarAcao (renderizarNumero pa.1, Json.num pa.2) = some pa := by
  obtain ⟨a, v⟩ := pa
  simp [analisarAcao, analisarNumero_renderizarNumero]

theorem analisarEntrada_renderizar (par : ChaveEstado × TabelaAcoes) :
    analisarEntrada (renderizarChave par.1,
      Json.obj (par.2.map (fun pa => (renderizarNumero pa.1, Json.num pa.2)))) =
      some par := by
  obtain ⟨estado, acoes⟩ := par
  simp only [analisarEntrada, analisarChave_renderizarChave]
  have hlista : analisarLista analisarAcao
      (acoes.map (fun pa => (renderizarNumero pa.1, Json.num pa.2))) = some acoes := by
    induction acoes with
    | nil => rfl
    | cons pa resto ih =>
        simp [analisarLista, analisarAcao_renderizar, ih]
  rw [hlista]
  rfl

/-- C9 (confirmed): serializing a Q-table and parsing it back reproduces a
table with exactly the same (state, action) entries and exactly equal values
for every recorded pair. -/
theorem C9_salvar_carregar (t : TabelaQ) : carregar (salvarMemoria t) = some t := by
  have h : ∀ l : TabelaQ,
      analisarLista analisarEntrada (l.map (fun par => (renderizarChave par.1,
        Json.obj (par.2.map (fun pa => (renderizarNumero pa.1, Json.num pa.2)))))) =
        some l := by
    intro l
    induction l with
    | nil => rfl
    | cons par resto ih =>
        simp [analisarLista, analisarEntrada_renderizar, ih]
  unfold salvarMemoria carregar
  exact h t
